import Mathlib

/-!
Verification of the Mars-rover mission-control core (`internal/rover/rover.go`).

The Go code is embedded shallowly: the mutable `Rover` and `MissionControl`
receivers become explicit state passing, the `map[Coordinates]int` occupancy
map becomes a function `Coordinates → Option Int`, Go errors built with
`fmt.Errorf` and `%w` become a small inductive type that records which
sentinel errors remain reachable by unwrapping (Go `errors.Is` semantics:
`%w` keeps the argument in the unwrap chain, `%v` only renders its text).
-/

namespace MarsRover

/-- Sentinel errors declared with `errors.New` in the Go source. -/
inductive BaseErr where
  | positionOutOfBounds
  | directionUnknown
  | roverPositionIsNil
  | roverCollision
  | roverInstructions
  | roverCreating
  | plateauTooSmall
  | plateauIsNil
deriving DecidableEq, Repr

/-- Go error values as produced by this package.  `wrapPlacement` models
`fmt.Errorf("new rover with id %d cannot be placed at (%s): %w", ...)` in
`RunRover` (the cause stays in the unwrap chain); `wrapOrdinal` models
`fmt.Errorf("%w %d: %v", sentinel, roverID, err)` in `Execute`, where only
the sentinel is wrapped with `%w` and the cause is rendered with `%v`. -/
inductive GoError where
  | sentinel : BaseErr → GoError
  | wrapPlacement : Int → String → GoError → GoError
  | wrapOrdinal : BaseErr → Int → GoError → GoError
deriving DecidableEq, Repr

/-- Go `errors.Is`: walk the unwrap chain looking for the sentinel.
`wrapOrdinal` only unwraps to its sentinel because the Go code formats the
cause with `%v`, which drops it from the chain. -/
def errorsIs : GoError → BaseErr → Bool
  | .sentinel e, t => decide (e = t)
  | .wrapPlacement _ _ cause, t => errorsIs cause t
  | .wrapOrdinal e _ _, t => decide (e = t)

/-- `type Direction int` -/
abbrev Direction := Int

/-- `UnknownDirection Direction = iota` -/
def UnknownDirection : Direction := 0

/-- North -/
def N : Direction := 1

/-- East -/
def E : Direction := 2

/-- South -/
def S : Direction := 3

/-- West -/
def W : Direction := 4

def minPlateauX : Int := 2

def minPlateauY : Int := 2

structure Coordinates where
  x : Int
  y : Int
deriving DecidableEq, Repr

structure Position where
  coordinates : Coordinates
  direction : Direction
deriving DecidableEq, Repr

structure Rover where
  id : Int
  position : Position
deriving DecidableEq, Repr

structure Plateau where
  maxX : Int
  maxY : Int
deriving DecidableEq, Repr

/-- The occupancy map `map[Coordinates]int`: at most one rover id per
coordinate, by construction. -/
def OccMap := Coordinates → Option Int

/-- Go map assignment `m[k] = v`. -/
def OccMap.insert (m : OccMap) (k : Coordinates) (v : Int) : OccMap :=
  fun c => if c = k then some v else m c

/-- Go `delete(m, k)`. -/
def OccMap.erase (m : OccMap) (k : Coordinates) : OccMap :=
  fun c => if c = k then none else m c

/-- Go `make(map[Coordinates]int)`. -/
def emptyOcc : OccMap := fun _ => none

structure RoverInstruction where
  InitialPosition : Option Position
  Commands : String

structure MissionControlInput where
  Instructions : List RoverInstruction

structure MissionControl where
  plateau : Plateau
  occupiedSquares : OccMap

/-- `func (d Direction) validate() error` -/
def Direction.validate (d : Direction) : Option GoError :=
  if d = UnknownDirection ∨ d < N ∨ d > W then some (.sentinel .directionUnknown)
  else none

/-- `func validateBoundaries(pos *Position, plateau *Plateau) error` -/
def validateBoundaries (pos : Position) (plateau : Plateau) : Option GoError :=
  if pos.coordinates.x < 0 ∨ pos.coordinates.x > plateau.maxX ∨
     pos.coordinates.y < 0 ∨ pos.coordinates.y > plateau.maxY then
    some (.sentinel .positionOutOfBounds)
  else none

/-- `func (pos *Position) validate(plateau *Plateau) error` -/
def Position.validate (pos : Position) (plateau : Plateau) : Option GoError :=
  validateBoundaries pos plateau

/-- `func NewPosition(p *Plateau, c Coordinates, d Direction) (*Position, error)`:
boundary check first, then direction check. -/
def NewPosition (p : Plateau) (c : Coordinates) (d : Direction) :
    Except GoError Position :=
  let pos : Position := { coordinates := c, direction := d }
  match pos.validate p with
  | some e => .error e
  | none =>
    match Direction.validate d with
    | some e => .error e
    | none => .ok pos

/-- `func (d Direction) String() string` -/
def Direction.render (d : Direction) : String :=
  if d = N then "N"
  else if d = E then "E"
  else if d = S then "S"
  else if d = W then "W"
  else "?"

/-- `func (p *Position) String() string`, i.e.
`fmt.Sprintf("%d %d %s", x, y, direction)`. -/
def Position.render (p : Position) : String :=
  toString p.coordinates.x ++ " " ++ toString p.coordinates.y ++ " " ++
    Direction.render p.direction

/-- `func NewRover(id int, p *Position) (*Rover, error)` (`p == nil` is
modelled as `none`). -/
def NewRover (id : Int) (p : Option Position) : Except GoError Rover :=
  match p with
  | none => .error (.sentinel .roverPositionIsNil)
  | some pos => .ok { id := id, position := pos }

/-- `func (r *Rover) move() Position`: candidate next position one cell in
the current facing; no bounds or occupancy check. -/
def Rover.move (r : Rover) : Position :=
  let next := r.position
  if r.position.direction = N then
    { next with coordinates := { next.coordinates with y := next.coordinates.y + 1 } }
  else if r.position.direction = E then
    { next with coordinates := { next.coordinates with x := next.coordinates.x + 1 } }
  else if r.position.direction = S then
    { next with coordinates := { next.coordinates with y := next.coordinates.y - 1 } }
  else if r.position.direction = W then
    { next with coordinates := { next.coordinates with x := next.coordinates.x - 1 } }
  else next

/-- `func (r *Rover) turnLeft()` -/
def Rover.turnLeft (r : Rover) : Rover :=
  if r.position.direction = N then
    { r with position := { r.position with direction := W } }
  else
    { r with position := { r.position with direction := r.position.direction - 1 } }

/-- `func (r *Rover) turnRight()` -/
def Rover.turnRight (r : Rover) : Rover :=
  if r.position.direction = W then
    { r with position := { r.position with direction := N } }
  else
    { r with position := { r.position with direction := r.position.direction + 1 } }

/-- `func NewPlateau(maxX, maxY int) (*Plateau, error)` -/
def NewPlateau (maxX maxY : Int) : Except GoError Plateau :=
  if maxX < minPlateauX ∨ maxY < minPlateauY then .error (.sentinel .plateauTooSmall)
  else .ok { maxX := maxX, maxY := maxY }

/-- `func NewMissionControl(p *Plateau) (*MissionControl, error)` -/
def NewMissionControl (p : Option Plateau) : Except GoError MissionControl :=
  match p with
  | none => .error (.sentinel .plateauIsNil)
  | some plateau => .ok { plateau := plateau, occupiedSquares := emptyOcc }

/-- `func (mc *MissionControl) validate(pos *Position) error`: boundaries
first, then the occupancy lookup. -/
def MissionControl.validate (mc : MissionControl) (pos : Position) : Option GoError :=
  match validateBoundaries pos mc.plateau with
  | some e => some e
  | none =>
    match mc.occupiedSquares pos.coordinates with
    | some _ => some (.sentinel .roverCollision)
    | none => none

/-- One iteration of the command loop of `RunRover` (the `switch Command(c)`
body): `L` and `R` turn, `M` moves if the candidate position validates and
is silently ignored otherwise, every other character falls through the
switch unchanged. -/
def MissionControl.processCommand (mc : MissionControl) (r : Rover) (c : Char) :
    Rover × MissionControl :=
  if c = 'L' then (r.turnLeft, mc)
  else if c = 'R' then (r.turnRight, mc)
  else if c = 'M' then
    let currentPosKey := r.position.coordinates
    let nextPos := r.move
    match mc.validate nextPos with
    | some _ => (r, mc)
    | none =>
      let r2 : Rover := { r with position := nextPos }
      let occ2 := ((mc.occupiedSquares.erase currentPosKey).insert nextPos.coordinates r.id)
      (r2, { mc with occupiedSquares := occ2 })
  else (r, mc)

/-- The `for _, c := range commands` loop of `RunRover`. -/
def processCommands : MissionControl → Rover → List Char → Rover × MissionControl
  | mc, r, [] => (r, mc)
  | mc, r, c :: cs =>
    let s := mc.processCommand r c
    processCommands s.2 s.1 cs

/-- `func (mc *MissionControl) RunRover(r *Rover, commands string) (string, error)`.
The mutation of `r` and `mc` is returned explicitly; the error branch
returns both unchanged, exactly as the Go code returns before mutating. -/
def MissionControl.RunRover (mc : MissionControl) (r : Rover) (commands : String) :
    Except GoError String × Rover × MissionControl :=
  match mc.validate r.position with
  | some e => (.error (.wrapPlacement r.id (r.position.render) e), r, mc)
  | none =>
    let mc1 : MissionControl :=
      { mc with occupiedSquares := mc.occupiedSquares.insert r.position.coordinates r.id }
    let s := processCommands mc1 r commands.data
    (.ok (s.1.position.render), s.1, s.2)

/-- The loop body of `Execute`: 1-based ordinals, abort on the first failed
rover construction or run, otherwise append the rendered final position. -/
def executeLoop :
    MissionControl → Nat → List RoverInstruction → List String →
      Except GoError (List String) × MissionControl
  | mc, _, [], output => (.ok output, mc)
  | mc, i, ins :: rest, output =>
    match NewRover ((i : Int) + 1) ins.InitialPosition with
    | .error e => (.error (.wrapOrdinal .roverCreating ((i : Int) + 1) e), mc)
    | .ok currentRover =>
      match mc.RunRover currentRover ins.Commands with
      | (.error e, _, mc2) => (.error (.wrapOrdinal .roverInstructions ((i : Int) + 1) e), mc2)
      | (.ok s, _, mc2) => executeLoop mc2 (i + 1) rest (output ++ [s])

/-- `func (mc *MissionControl) Execute(input *MissionControlInput) ([]string, error)`.
The final state of the receiver is returned as the second component. -/
def MissionControl.Execute (mc : MissionControl) (input : MissionControlInput) :
    Except GoError (List String) × MissionControl :=
  executeLoop mc 0 input.Instructions []

/-- A freshly constructed mission control for a plateau: exactly the value
`NewMissionControl` returns on a non-nil plateau (empty occupancy map). -/
def freshMC (p : Plateau) : MissionControl :=
  { plateau := p, occupiedSquares := emptyOcc }

theorem newMissionControl_freshMC (p : Plateau) :
    NewMissionControl (some p) = .ok (freshMC p) := rfl

/-- The 5x5 plateau used by the spec scenarios. -/
def plateau55 : Plateau := { maxX := 5, maxY := 5 }

/-- Scenario A input: rover1 at (1,2) facing N with "LMLMLMLMM",
rover2 at (3,3) facing E with "MMRMMRMRRM". -/
def scenarioA : MissionControlInput :=
  { Instructions :=
      [ { InitialPosition := some { coordinates := { x := 1, y := 2 }, direction := N },
          Commands := "LMLMLMLMM" },
        { InitialPosition := some { coordinates := { x := 3, y := 3 }, direction := E },
          Commands := "MMRMMRMRRM" } ] }

/-- Scenario B input: rover1 at (3,3) facing N with "L", rover2 at (3,1)
facing N with "MM" (rover2 is blocked one cell short of rover1). -/
def scenarioB : MissionControlInput :=
  { Instructions :=
      [ { InitialPosition := some { coordinates := { x := 3, y := 3 }, direction := N },
          Commands := "L" },
        { InitialPosition := some { coordinates := { x := 3, y := 1 }, direction := N },
          Commands := "MM" } ] }

/-- Scenario C input: one rover at (0,0) facing S with "MMM". -/
def scenarioC : MissionControlInput :=
  { Instructions :=
      [ { InitialPosition := some { coordinates := { x := 0, y := 0 }, direction := S },
          Commands := "MMM" } ] }

/-- Claim C1: on a 5x5 plateau, the instruction list
[rover1 at (1,2) facing N with commands "LMLMLMLMM",
 rover2 at (3,3) facing E with commands "MMRMMRMRRM"]
makes Execute succeed with exactly the output sequence
["1 3 N", "5 1 E"], in input order, each string in the
"x y direction-letter" format of Position.String. -/
theorem C1_scenarioA_output :
    (MissionControl.Execute (freshMC plateau55) scenarioA).1
      = .ok ["1 3 N", "5 1 E"] := rfl

/-- Claim C3: when the initial position of a rover fails the mission-control
validation (out of bounds, or its coordinates are a key of the occupancy
map), RunRover returns the wrapped error immediately; the rover and the
whole mission-control state (in particular the occupancy map) are returned
unchanged, so no command is processed and the rover is never registered. -/
theorem C3_placement_failure_immediate (mc : MissionControl) (r : Rover)
    (commands : String) (e : GoError)
    (h : mc.validate r.position = some e) :
    mc.RunRover r commands =
      (.error (.wrapPlacement r.id (r.position.render) e), r, mc) := by
  unfold MissionControl.RunRover
  rw [h]

/-- A mission control on the 5x5 plateau whose (1,2) cell is occupied by
rover 7. -/
def mcOccupied12 : MissionControl :=
  { plateau := plateau55, occupiedSquares := OccMap.insert emptyOcc { x := 1, y := 2 } 7 }

/-- A rover with id 2 placed at (1,2) facing N. -/
def roverAt12 : Rover :=
  { id := 2, position := { coordinates := { x := 1, y := 2 }, direction := N } }

theorem C3_witness :
    mcOccupied12.validate roverAt12.position = some (.sentinel .roverCollision) ∧
    mcOccupied12.RunRover roverAt12 "MMM"
      = (.error (.wrapPlacement 2 "1 2 N" (.sentinel .roverCollision)),
         roverAt12, mcOccupied12) := by
  refine ⟨by decide, ?_⟩
  exact C3_placement_failure_immediate mcOccupied12 roverAt12 "MMM"
    (.sentinel .roverCollision) (by decide)

/-- Claim C9: a command character other than L, R, M is silently skipped:
the switch falls through, leaving the rover and the occupancy map
unchanged, producing no error, and the loop continues with the next
character. -/
theorem C9_unknown_command_skipped (mc : MissionControl) (r : Rover)
    (c : Char) (cs : List Char)
    (h : c ≠ 'L' ∧ c ≠ 'R' ∧ c ≠ 'M') :
    mc.processCommand r c = (r, mc) ∧
    processCommands mc r (c :: cs) = processCommands mc r cs := by
  obtain ⟨hL, hR, hM⟩ := h
  have hstep : mc.processCommand r c = (r, mc) := by
    unfold MissionControl.processCommand
    rw [if_neg hL, if_neg hR, if_neg hM]
  refine ⟨hstep, ?_⟩
  show processCommands (mc.processCommand r c).2 (mc.processCommand r c).1 cs = _
  rw [hstep]

theorem C9_witness :
    MissionControl.processCommand (freshMC plateau55) roverAt12 'X'
        = (roverAt12, freshMC plateau55) ∧
    processCommands (freshMC plateau55) roverAt12 ['X']
      = processCommands (freshMC plateau55) roverAt12 [] :=
  C9_unknown_command_skipped (freshMC plateau55) roverAt12 'X' []
    (by refine ⟨?_, ?_, ?_⟩ <;> decide)

/-- Claim C10: Execute on an input with an empty instruction list succeeds
with an empty output sequence and leaves the mission control, in
particular its occupancy map, unchanged. -/
theorem C10_empty_instruction_list (mc : MissionControl) :
    mc.Execute { Instructions := [] } = (.ok [], mc) := rfl

/-- Claim C8: Execute is deterministic: two runs from freshly constructed
mission controls over the same plateau (each with an empty occupancy map,
as NewMissionControl produces) on identical inputs give identical results. -/
theorem C8_execute_deterministic (p : Plateau) (input : MissionControlInput)
    (mc1 mc2 : MissionControl)
    (h1 : NewMissionControl (some p) = .ok mc1)
    (h2 : NewMissionControl (some p) = .ok mc2) :
    mc1.Execute input = mc2.Execute input := by
  have e1 : mc1 = freshMC p := by
    have h := (newMissionControl_freshMC p).symm.trans h1
    exact ((Except.ok.injEq _ _).mp h).symm
  have e2 : mc2 = freshMC p := by
    have h := (newMissionControl_freshMC p).symm.trans h2
    exact ((Except.ok.injEq _ _).mp h).symm
  rw [e1, e2]

theorem C8_witness :
    (freshMC plateau55).Execute scenarioC = (freshMC plateau55).Execute scenarioC :=
  C8_execute_deterministic plateau55 scenarioC
    (freshMC plateau55) (freshMC plateau55) rfl rfl

/-- Claim C2: an `M` command whose candidate next position is out of the
plateau bounds, or whose coordinates are already a key of the occupancy
map, is absorbed: that step leaves the rover and the occupancy map
unchanged, and the remaining commands are processed from the current
(unchanged) state; once placement succeeded RunRover never returns an
error, whatever the command string; and on a 5x5 plateau a rover at (0,0)
facing S given "MMM" yields ["0 0 S"] with no error. -/
theorem C2_blocked_move_ignored :
    (∀ (mc : MissionControl) (r : Rover) (cs : List Char),
        (r.move.coordinates.x < 0 ∨ r.move.coordinates.x > mc.plateau.maxX ∨
         r.move.coordinates.y < 0 ∨ r.move.coordinates.y > mc.plateau.maxY ∨
         mc.occupiedSquares r.move.coordinates ≠ none) →
        mc.processCommand r 'M' = (r, mc) ∧
        processCommands mc r ('M' :: cs) = processCommands mc r cs) ∧
    (∀ (mc : MissionControl) (r : Rover) (commands : String),
        mc.validate r.position = none →
        ∃ r2 mc2, mc.RunRover r commands = (.ok (r2.position.render), r2, mc2)) ∧
    (MissionControl.Execute (freshMC plateau55) scenarioC).1 = .ok ["0 0 S"] := by
  refine ⟨?_, ?_, rfl⟩
  · intro mc r cs hblock
    have hv : ∃ e, mc.validate r.move = some e := by
      unfold MissionControl.validate
      by_cases hb : r.move.coordinates.x < 0 ∨ r.move.coordinates.x > mc.plateau.maxX ∨
          r.move.coordinates.y < 0 ∨ r.move.coordinates.y > mc.plateau.maxY
      · refine ⟨.sentinel .positionOutOfBounds, ?_⟩
        unfold validateBoundaries
        rw [if_pos hb]
      · have hocc : mc.occupiedSquares r.move.coordinates ≠ none := by
          rcases hblock with h | h | h | h | h
          · exact absurd (Or.inl h) hb
          · exact absurd (Or.inr (Or.inl h)) hb
          · exact absurd (Or.inr (Or.inr (Or.inl h))) hb
          · exact absurd (Or.inr (Or.inr (Or.inr h))) hb
          · exact h
        rcases hl : mc.occupiedSquares r.move.coordinates with _ | v
        · exact absurd hl hocc
        · refine ⟨.sentinel .roverCollision, ?_⟩
          unfold validateBoundaries
          rw [if_neg hb]
    obtain ⟨e, he⟩ := hv
    have hstep : mc.processCommand r 'M' = (r, mc) := by
      unfold MissionControl.processCommand
      rw [if_neg (by decide), if_neg (by decide), if_pos rfl]
      simp only [he]
    refine ⟨hstep, ?_⟩
    show processCommands (mc.processCommand r 'M').2 (mc.processCommand r 'M').1 cs
      = processCommands mc r cs
    rw [hstep]
  · intro mc r commands h
    unfold MissionControl.RunRover
    rw [h]
    exact ⟨_, _, rfl⟩

/-- The rover of Scenario C, at (0,0) facing S on an empty 5x5 plateau. -/
def roverAt00S : Rover :=
  { id := 1, position := { coordinates := { x := 0, y := 0 }, direction := S } }

theorem C2_witness :
    MissionControl.processCommand (freshMC plateau55) roverAt00S 'M'
        = (roverAt00S, freshMC plateau55) ∧
    processCommands (freshMC plateau55) roverAt00S ['M', 'M', 'M']
      = processCommands (freshMC plateau55) roverAt00S ['M', 'M'] :=
  C2_blocked_move_ignored.1 (freshMC plateau55) roverAt00S ['M', 'M'] (by decide)

/-- The four cardinal direction values. -/
abbrev Direction.isCardinal (d : Direction) : Prop :=
  d = N ∨ d = E ∨ d = S ∨ d = W

/-- Closed form of `NewPosition`: boundary check first, then the direction
check, otherwise the position itself. -/
theorem newPosition_eq (p : Plateau) (c : Coordinates) (d : Direction) :
    NewPosition p c d =
      if c.x < 0 ∨ c.x > p.maxX ∨ c.y < 0 ∨ c.y > p.maxY then
        .error (.sentinel .positionOutOfBounds)
      else if d = UnknownDirection ∨ d < N ∨ d > W then
        .error (.sentinel .directionUnknown)
      else .ok { coordinates := c, direction := d } := by
  unfold NewPosition Position.validate validateBoundaries Direction.validate
  by_cases hb : c.x < 0 ∨ c.x > p.maxX ∨ c.y < 0 ∨ c.y > p.maxY <;>
    by_cases hd : d = UnknownDirection ∨ d < N ∨ d > W <;>
      simp [hb, hd]

/-- Claim C6: for a plateau with both dimensions at least the minimum,
constructing a position succeeds iff the coordinates are within bounds and
the direction is cardinal; out of bounds fails with PositionOutOfBounds,
a non-cardinal direction in bounds fails with DirectionUnknown, and when
both are invalid the out-of-bounds error is reported first. -/
theorem C6_newPosition_characterization (mx my x y : Int) (d : Direction)
    (_hmx : minPlateauX ≤ mx) (_hmy : minPlateauY ≤ my) :
    ((∃ pos, NewPosition { maxX := mx, maxY := my } { x := x, y := y } d = .ok pos) ↔
      (0 ≤ x ∧ x ≤ mx ∧ 0 ≤ y ∧ y ≤ my ∧ Direction.isCardinal d)) ∧
    ((x < 0 ∨ x > mx ∨ y < 0 ∨ y > my) →
      NewPosition { maxX := mx, maxY := my } { x := x, y := y } d
        = .error (.sentinel .positionOutOfBounds)) ∧
    ((0 ≤ x ∧ x ≤ mx ∧ 0 ≤ y ∧ y ≤ my) → ¬ Direction.isCardinal d →
      NewPosition { maxX := mx, maxY := my } { x := x, y := y } d
        = .error (.sentinel .directionUnknown)) := by
  have hcard : Direction.isCardinal d ↔ ¬(d = UnknownDirection ∨ d < N ∨ d > W) := by
    show (@Eq Int d 1 ∨ @Eq Int d 2 ∨ @Eq Int d 3 ∨ @Eq Int d 4) ↔
      ¬(@Eq Int d 0 ∨ @LT.lt Int _ d 1 ∨ @GT.gt Int _ d 4)
    omega
  rw [newPosition_eq]
  refine ⟨⟨?_, ?_⟩, ?_, ?_⟩
  · rintro ⟨pos, hpos⟩
    by_cases hb : x < 0 ∨ x > mx ∨ y < 0 ∨ y > my
    · simp [hb] at hpos
    by_cases hd : d = UnknownDirection ∨ d < N ∨ d > W
    · simp [hb, hd] at hpos
    rw [hcard]
    exact ⟨by omega, by omega, by omega, by omega, hd⟩
  · rintro ⟨h1, h2, h3, h4, hc⟩
    have hd := hcard.mp hc
    have hb : ¬(x < 0 ∨ x > mx ∨ y < 0 ∨ y > my) := by omega
    refine ⟨{ coordinates := { x := x, y := y }, direction := d }, ?_⟩
    simp [hb, hd]
  · intro hb
    simp [hb]
  · intro hin hd
    have hd2 := (not_iff_not.mpr hcard).mp hd
    rw [not_not] at hd2
    have hb : ¬(x < 0 ∨ x > mx ∨ y < 0 ∨ y > my) := by omega
    simp [hb, hd2]

theorem C6_witness :
    ((∃ pos, NewPosition { maxX := 5, maxY := 5 } { x := 1, y := 2 } N = .ok pos) ↔
      (0 ≤ (1 : Int) ∧ (1 : Int) ≤ 5 ∧ 0 ≤ (2 : Int) ∧ (2 : Int) ≤ 5 ∧
        Direction.isCardinal N)) ∧
    (((1 : Int) < 0 ∨ (1 : Int) > 5 ∨ (2 : Int) < 0 ∨ (2 : Int) > 5) →
      NewPosition { maxX := 5, maxY := 5 } { x := 1, y := 2 } N
        = .error (.sentinel .positionOutOfBounds)) ∧
    ((0 ≤ (1 : Int) ∧ (1 : Int) ≤ 5 ∧ 0 ≤ (2 : Int) ∧ (2 : Int) ≤ 5) →
      ¬ Direction.isCardinal N →
      NewPosition { maxX := 5, maxY := 5 } { x := 1, y := 2 } N
        = .error (.sentinel .directionUnknown)) :=
  C6_newPosition_characterization 5 5 1 2 N (by decide) (by decide)

/-- Claim C7: turning is closed and cyclic on the four cardinal directions:
four consecutive turnLeft (or turnRight) calls are the identity, turnLeft
from N yields W, turnRight from W yields N, and turning never changes the
coordinates (and, being total, always succeeds). -/
theorem C7_turning_cyclic (r : Rover) (h : Direction.isCardinal r.position.direction) :
    r.turnLeft.turnLeft.turnLeft.turnLeft = r ∧
    r.turnRight.turnRight.turnRight.turnRight = r ∧
    (r.position.direction = N → r.turnLeft.position.direction = W) ∧
    (r.position.direction = W → r.turnRight.position.direction = N) ∧
    r.turnLeft.position.coordinates = r.position.coordinates ∧
    r.turnRight.position.coordinates = r.position.coordinates := by
  obtain ⟨i, ⟨coords, d⟩⟩ := r
  rcases h with h | h | h | h <;> subst h <;>
    refine ⟨rfl, rfl, ?_, ?_, rfl, rfl⟩ <;>
      intro h2 <;>
        first
          | rfl
          | simp [N, E, S, W] at h2

theorem C7_witness :
    roverAt00S.turnLeft.turnLeft.turnLeft.turnLeft = roverAt00S ∧
    roverAt00S.turnRight.turnRight.turnRight.turnRight = roverAt00S ∧
    (roverAt00S.position.direction = N → roverAt00S.turnLeft.position.direction = W) ∧
    (roverAt00S.position.direction = W → roverAt00S.turnRight.position.direction = N) ∧
    roverAt00S.turnLeft.position.coordinates = roverAt00S.position.coordinates ∧
    roverAt00S.turnRight.position.coordinates = roverAt00S.position.coordinates :=
  C7_turning_cyclic roverAt00S (by decide)

theorem turnLeft_id (r : Rover) : r.turnLeft.id = r.id := by
  unfold Rover.turnLeft
  split <;> rfl

theorem turnLeft_coordinates (r : Rover) :
    r.turnLeft.position.coordinates = r.position.coordinates := by
  unfold Rover.turnLeft
  split <;> rfl

theorem turnRight_id (r : Rover) : r.turnRight.id = r.id := by
  unfold Rover.turnRight
  split <;> rfl

theorem turnRight_coordinates (r : Rover) :
    r.turnRight.position.coordinates = r.position.coordinates := by
  unfold Rover.turnRight
  split <;> rfl

/-- A passing mission-control validation means in particular that the
target coordinates are not in the occupancy map. -/
theorem validate_none_lookup (mc : MissionControl) (pos : Position)
    (h : mc.validate pos = none) :
    mc.occupiedSquares pos.coordinates = none := by
  unfold MissionControl.validate at h
  rcases hb : validateBoundaries pos mc.plateau with _ | e
  · rw [hb] at h
    rcases hl : mc.occupiedSquares pos.coordinates with _ | v
    · rfl
    · rw [hl] at h
      cases h
  · rw [hb] at h
    cases h

/-- Invariant of the command-processing loop: if the occupancy map is some
base map (without the running rover) extended with the running rover's own
entry, and the base map does not contain the rover's cell, then the loop
preserves this shape, never touches the base map, and never changes the
rover's id. -/
theorem processCommands_spec (cmds : List Char) :
    ∀ (mc : MissionControl) (r : Rover) (base : OccMap),
      mc.occupiedSquares = OccMap.insert base r.position.coordinates r.id →
      base r.position.coordinates = none →
      (processCommands mc r cmds).1.id = r.id ∧
      (processCommands mc r cmds).2.plateau = mc.plateau ∧
      (processCommands mc r cmds).2.occupiedSquares
        = OccMap.insert base (processCommands mc r cmds).1.position.coordinates r.id ∧
      base (processCommands mc r cmds).1.position.coordinates = none := by
  induction cmds with
  | nil =>
    intro mc r base hocc hbase
    exact ⟨rfl, rfl, hocc, hbase⟩
  | cons c cs ih =>
    intro mc r base hocc hbase
    simp only [processCommands]
    by_cases hL : c = 'L'
    · subst hL
      have hpc : mc.processCommand r 'L' = (r.turnLeft, mc) := by
        unfold MissionControl.processCommand
        rw [if_pos rfl]
      rw [hpc]
      have hocc2 : mc.occupiedSquares
          = OccMap.insert base r.turnLeft.position.coordinates r.turnLeft.id := by
        rw [turnLeft_coordinates, turnLeft_id]
        exact hocc
      have hbase2 : base r.turnLeft.position.coordinates = none := by
        rw [turnLeft_coordinates]
        exact hbase
      obtain ⟨h1, h2, h3, h4⟩ := ih mc r.turnLeft base hocc2 hbase2
      exact ⟨h1.trans (turnLeft_id r), h2, by rw [h3, turnLeft_id], h4⟩
    by_cases hR : c = 'R'
    · subst hR
      have hpc : mc.processCommand r 'R' = (r.turnRight, mc) := by
        unfold MissionControl.processCommand
        rw [if_neg hL, if_pos rfl]
      rw [hpc]
      have hocc2 : mc.occupiedSquares
          = OccMap.insert base r.turnRight.position.coordinates r.turnRight.id := by
        rw [turnRight_coordinates, turnRight_id]
        exact hocc
      have hbase2 : base r.turnRight.position.coordinates = none := by
        rw [turnRight_coordinates]
        exact hbase
      obtain ⟨h1, h2, h3, h4⟩ := ih mc r.turnRight base hocc2 hbase2
      exact ⟨h1.trans (turnRight_id r), h2, by rw [h3, turnRight_id], h4⟩
    by_cases hM : c = 'M'
    · subst hM
      rcases hv : mc.validate r.move with _ | e
      · -- the candidate position is valid: the move is committed
        have hpc : mc.processCommand r 'M' =
            ({ r with position := r.move },
             { mc with occupiedSquares := OccMap.insert (OccMap.erase mc.occupiedSquares r.position.coordinates) r.move.coordinates r.id }) := by
          unfold MissionControl.processCommand
          rw [if_neg hL, if_neg hR, if_pos rfl]
          simp only [hv]
        rw [hpc]
        have hlook : mc.occupiedSquares r.move.coordinates = none :=
          validate_none_lookup mc r.move hv
        have hins := congrFun hocc r.move.coordinates
        rw [hlook] at hins
        unfold OccMap.insert at hins
        have hne : r.move.coordinates ≠ r.position.coordinates := by
          intro hcontra
          rw [if_pos hcontra] at hins
          cases hins
        rw [if_neg hne] at hins
        have hoccnew : OccMap.insert (OccMap.erase mc.occupiedSquares r.position.coordinates) r.move.coordinates r.id
            = OccMap.insert base r.move.coordinates r.id := by
          funext ccc
          unfold OccMap.insert OccMap.erase
          by_cases h1 : ccc = r.move.coordinates
          · rw [if_pos h1, if_pos h1]
          rw [if_neg h1, if_neg h1]
          by_cases h2 : ccc = r.position.coordinates
          · rw [if_pos h2]
            subst h2
            exact hbase.symm
          rw [if_neg h2]
          have := congrFun hocc ccc
          unfold OccMap.insert at this
          rw [if_neg h2] at this
          exact this
        have hocc2 : ({ mc with occupiedSquares := OccMap.insert (OccMap.erase mc.occupiedSquares r.position.coordinates) r.move.coordinates r.id } : MissionControl).occupiedSquares
            = OccMap.insert base ({ r with position := r.move } : Rover).position.coordinates ({ r with position := r.move } : Rover).id := hoccnew
        obtain ⟨h1, h2, h3, h4⟩ := ih _ { r with position := r.move } base hocc2 hins.symm
        exact ⟨h1, h2, h3, h4⟩
      · -- the candidate position is invalid: the move is silently ignored
        have hpc : mc.processCommand r 'M' = (r, mc) := by
          unfold MissionControl.processCommand
          rw [if_neg hL, if_neg hR, if_pos rfl]
          simp only [hv]
        rw [hpc]
        exact ih mc r base hocc hbase
    · -- unrecognized command character: skipped
      have hpc : mc.processCommand r c = (r, mc) := by
        unfold MissionControl.processCommand
        rw [if_neg hL, if_neg hR, if_neg hM]
      rw [hpc]
      exact ih mc r base hocc hbase

/-- What a successful `RunRover` guarantees: the placement validation
passed, the output is the rendered final position, the rover keeps its id,
the plateau is untouched, and the occupancy map is exactly the incoming map
extended with the rover's final cell — a cell the incoming map did not
contain. -/
theorem runRover_spec (mc : MissionControl) (r : Rover) (commands : String)
    (out : String) (r2 : Rover) (mc2 : MissionControl)
    (h : mc.RunRover r commands = (.ok out, r2, mc2)) :
    mc.validate r.position = none ∧
    out = r2.position.render ∧
    r2.id = r.id ∧
    mc2.plateau = mc.plateau ∧
    mc2.occupiedSquares
      = OccMap.insert mc.occupiedSquares r2.position.coordinates r.id ∧
    mc.occupiedSquares r2.position.coordinates = none := by
  rcases hval : mc.validate r.position with _ | e
  · have hrun : mc.RunRover r commands
        = (.ok ((processCommands { mc with occupiedSquares := OccMap.insert mc.occupiedSquares r.position.coordinates r.id } r commands.data).1.position.render),
           (processCommands { mc with occupiedSquares := OccMap.insert mc.occupiedSquares r.position.coordinates r.id } r commands.data).1,
           (processCommands { mc with occupiedSquares := OccMap.insert mc.occupiedSquares r.position.coordinates r.id } r commands.data).2) := by
      unfold MissionControl.RunRover
      rw [hval]
    rw [hrun] at h
    obtain ⟨hout, hr2, hmc2⟩ : out = _ ∧ r2 = _ ∧ mc2 = _ := by
      have h1 := congrArg Prod.fst h
      have h2 := congrArg (fun z => z.2.1) h
      have h3 := congrArg (fun z => z.2.2) h
      simp only at h1 h2 h3
      exact ⟨(Except.ok.injEq _ _).mp h1.symm, h2.symm, h3.symm⟩
    have hbase : mc.occupiedSquares r.position.coordinates = none :=
      validate_none_lookup mc r.position hval
    obtain ⟨p1, p2, p3, p4⟩ := processCommands_spec commands.data
      { mc with occupiedSquares := OccMap.insert mc.occupiedSquares r.position.coordinates r.id }
      r mc.occupiedSquares rfl hbase
    subst hr2
    subst hmc2
    exact ⟨rfl, hout, p1, p2, by rw [p3], p4⟩
  · exfalso
    have hrun : mc.RunRover r commands
        = (.error (.wrapPlacement r.id (r.position.render) e), r, mc) := by
      unfold MissionControl.RunRover
      rw [hval]
    rw [hrun] at h
    have := congrArg Prod.fst h
    simp only at this
    cases this

/-- Extend an occupancy map with the final cells of a list of rovers. -/
def extendOcc (occ : OccMap) (rs : List Rover) : OccMap :=
  rs.foldl (fun m r => OccMap.insert m r.position.coordinates r.id) occ

/-- Each rover's final cell is absent from the occupancy map extended with
all previous rovers' final cells: the occupancy discipline of the engine. -/
def FreshList : OccMap → List Rover → Prop
  | _, [] => True
  | occ, r :: rest =>
    occ r.position.coordinates = none ∧
    FreshList (OccMap.insert occ r.position.coordinates r.id) rest

/-- Inserting into an occupancy map never clears a cell. -/
theorem insert_none_mono (occ : OccMap) (k : Coordinates) (v : Int)
    (c : Coordinates) (h : OccMap.insert occ k v c = none) : occ c = none := by
  unfold OccMap.insert at h
  by_cases hc : c = k
  · rw [if_pos hc] at h
    cases h
  · rw [if_neg hc] at h
    exact h

theorem freshList_base_none (rs : List Rover) :
    ∀ (occ : OccMap), FreshList occ rs →
      ∀ r2 ∈ rs, occ r2.position.coordinates = none := by
  induction rs with
  | nil =>
    intro occ _ r2 hr2
    cases hr2
  | cons a t ih =>
    intro occ hf r2 hr2
    obtain ⟨h1, h2⟩ := hf
    rcases List.mem_cons.mp hr2 with rfl | hmem
    · exact h1
    · exact insert_none_mono occ _ _ _ (ih _ h2 r2 hmem)

/-- A fresh list of rovers has pairwise distinct final coordinates. -/
theorem freshList_nodup (rs : List Rover) :
    ∀ (occ : OccMap), FreshList occ rs →
      (rs.map (fun r => r.position.coordinates)).Nodup := by
  induction rs with
  | nil =>
    intro occ _
    simp
  | cons a t ih =>
    intro occ hf
    obtain ⟨h1, h2⟩ := hf
    simp only [List.map_cons, List.nodup_cons]
    refine ⟨?_, ih _ h2⟩
    intro hmem
    obtain ⟨r2, hr2, hco⟩ := List.mem_map.mp hmem
    have hnone := freshList_base_none t _ h2 r2 hr2
    rw [hco] at hnone
    unfold OccMap.insert at hnone
    rw [if_pos rfl] at hnone
    cases hnone

/-- What a successful `executeLoop` run guarantees: there is a list of
final rover states whose renderings are exactly the produced outputs (in
input order), whose cells extend the incoming occupancy map one rover at a
time, each placed on a cell not yet occupied at its turn. -/
theorem executeLoop_ok (instrs : List RoverInstruction) :
    ∀ (mc : MissionControl) (i : Nat) (out0 : List String) (res : List String)
      (mcF : MissionControl),
      executeLoop mc i instrs out0 = (.ok res, mcF) →
      ∃ rs : List Rover,
        res = out0 ++ rs.map (fun r => r.position.render) ∧
        mcF.plateau = mc.plateau ∧
        mcF.occupiedSquares = extendOcc mc.occupiedSquares rs ∧
        FreshList mc.occupiedSquares rs := by
  induction instrs with
  | nil =>
    intro mc i out0 res mcF h
    simp only [executeLoop] at h
    obtain ⟨h1, h2⟩ : Except.ok out0 = Except.ok res ∧ mc = mcF := by
      have ha := congrArg Prod.fst h
      have hb := congrArg Prod.snd h
      simp only at ha hb
      exact ⟨ha, hb⟩
    refine ⟨[], ?_, ?_, ?_, trivial⟩
    · rw [← (Except.ok.injEq _ _).mp h1]
      simp
    · rw [h2]
    · rw [← h2]
      rfl
  | cons ins rest ih =>
    intro mc i out0 res mcF h
    simp only [executeLoop] at h
    rcases hnr : NewRover ((i : Int) + 1) ins.InitialPosition with e | currentRover
    · rw [hnr] at h
      simp at h
    · rw [hnr] at h
      simp only at h
      rcases hrr : mc.RunRover currentRover ins.Commands with ⟨res1, rsnd, mc2⟩
      rw [hrr] at h
      rcases res1 with e | s
      · simp at h
      · simp only at h
        obtain ⟨rs, q1, q2, q3, q4⟩ := ih mc2 (i + 1) (out0 ++ [s]) res mcF h
        obtain ⟨_, wout, wid, wpl, wocc, wfresh⟩ :=
          runRover_spec mc currentRover ins.Commands s rsnd mc2 hrr
        refine ⟨rsnd :: rs, ?_, ?_, ?_, ?_, ?_⟩
        · rw [q1, wout]
          simp
        · rw [q2, wpl]
        · rw [q3, wocc]
          show _ = extendOcc (OccMap.insert mc.occupiedSquares rsnd.position.coordinates rsnd.id) rs
          rw [wid]
        · exact wfresh
        · show FreshList (OccMap.insert mc.occupiedSquares rsnd.position.coordinates rsnd.id) rs
          rw [wid, ← wocc]
          exact q4

/-- Claim C5: after a successful Execute on a fresh mission control, the
final coordinates of the processed rovers (whose renderings are exactly
the outputs, in order) are pairwise distinct; the occupancy map — which by
construction holds at most one rover id per coordinate — ends up extended
by exactly those final cells, each validated as free against the state
left by all previous rovers (sequential visibility). -/
theorem C5_no_two_rovers_share_a_cell (p : Plateau) (input : MissionControlInput)
    (res : List String)
    (h : (MissionControl.Execute (freshMC p) input).1 = .ok res) :
    ∃ rs : List Rover,
      res = rs.map (fun r => r.position.render) ∧
      (rs.map (fun r => r.position.coordinates)).Nodup ∧
      ((freshMC p).Execute input).2.occupiedSquares = extendOcc emptyOcc rs ∧
      FreshList emptyOcc rs := by
  rcases hx : (MissionControl.Execute (freshMC p) input) with ⟨res1, mcF⟩
  have hres : res1 = .ok res := by
    rw [hx] at h
    exact h
  subst hres
  obtain ⟨rs, q1, _, q3, q4⟩ :=
    executeLoop_ok input.Instructions (freshMC p) 0 [] res mcF hx
  exact ⟨rs, by simpa using q1, freshList_nodup rs emptyOcc q4, q3, q4⟩

theorem C5_witness :
    ∃ rs : List Rover,
      ["3 3 W", "3 2 N"] = rs.map (fun r => r.position.render) ∧
      (rs.map (fun r => r.position.coordinates)).Nodup ∧
      ((freshMC plateau55).Execute scenarioB).2.occupiedSquares = extendOcc emptyOcc rs ∧
      FreshList emptyOcc rs :=
  C5_no_two_rovers_share_a_cell plateau55 scenarioB ["3 3 W", "3 2 N"] rfl

/-- One failing step of the batch loop, construction kind: if the rover of
the first pending instruction cannot be constructed, `executeLoop` aborts
right there with RoverCreationFailed wrapped around this ordinal and this
cause, discarding the output accumulated so far. -/
theorem executeLoop_cons_creationFailure (mc : MissionControl) (i : Nat)
    (ins : RoverInstruction) (rest : List RoverInstruction)
    (out0 : List String) (e : GoError)
    (hne : NewRover ((i : Int) + 1) ins.InitialPosition = .error e) :
    executeLoop mc i (ins :: rest) out0
      = (.error (.wrapOrdinal .roverCreating ((i : Int) + 1) e), mc) := by
  simp only [executeLoop, hne]

/-- One failing step of the batch loop, run kind: if the rover of the first
pending instruction is constructed but its `RunRover` fails, `executeLoop`
aborts right there with RoverExecutionFailed wrapped around this ordinal
and the RunRover error, discarding the output accumulated so far. -/
theorem executeLoop_cons_runFailure (mc : MissionControl) (i : Nat)
    (ins : RoverInstruction) (rest : List RoverInstruction)
    (out0 : List String) (r : Rover) (e : GoError) (r2 : Rover)
    (mc2 : MissionControl)
    (hnr : NewRover ((i : Int) + 1) ins.InitialPosition = .ok r)
    (hrr : mc.RunRover r ins.Commands = (.error e, r2, mc2)) :
    executeLoop mc i (ins :: rest) out0
      = (.error (.wrapOrdinal .roverInstructions ((i : Int) + 1) e), mc2) := by
  simp only [executeLoop, hnr, hrr]

/-- After a successfully executed prefix, the batch loop continues over the
remaining instructions from the prefix's final state, with the ordinal
counter advanced by the prefix length. -/
theorem executeLoop_append (pre : List RoverInstruction) :
    ∀ (rest : List RoverInstruction) (mc : MissionControl) (i : Nat)
      (out0 outs : List String) (mcMid : MissionControl),
      executeLoop mc i pre out0 = (.ok outs, mcMid) →
      executeLoop mc i (pre ++ rest) out0
        = executeLoop mcMid (i + pre.length) rest outs := by
  induction pre with
  | nil =>
    intro rest mc i out0 outs mcMid h
    simp only [executeLoop] at h
    have h1 := congrArg Prod.fst h
    have h2 := congrArg Prod.snd h
    simp only at h1 h2
    have houts : out0 = outs := (Except.ok.injEq _ _).mp h1
    subst houts
    subst h2
    simp
  | cons ins pre ih =>
    intro rest mc i out0 outs mcMid h
    simp only [executeLoop] at h
    rcases hnr : NewRover ((i : Int) + 1) ins.InitialPosition with e | currentRover
    · rw [hnr] at h
      simp at h
    · rw [hnr] at h
      simp only at h
      rcases hrr : mc.RunRover currentRover ins.Commands with ⟨res1, rsnd, mc2⟩
      rw [hrr] at h
      rcases res1 with e | s
      · simp at h
      · simp only at h
        have hstep := ih rest mc2 (i + 1) (out0 ++ [s]) outs mcMid h
        have hidx : i + (ins :: pre).length = (i + 1) + pre.length := by
          simp only [List.length_cons]
          omega
        rw [List.cons_append]
        simp only [executeLoop, hnr, hrr]
        rw [hstep, hidx]

/-- Claim C4 (amended): if the first k-1 instructions execute successfully
and instruction k then fails — its rover cannot be constructed, or its
RunRover call fails (e.g. with RoverCollision when placed onto an occupied
cell) — Execute aborts with exactly the error wrapping RoverCreationFailed
(resp. RoverExecutionFailed) around the failing rover's ordinal k and the
actual cause; the sentinel matching the failure kind is reachable by
unwrapping while the cause is carried as rendered text only, and Execute
returns an error, not an output list, so none of the outputs already
computed for rovers 1..k-1 are returned. -/
theorem C4_execute_aborts_at_failing_ordinal (mc : MissionControl)
    (input : MissionControlInput) (pre post : List RoverInstruction)
    (ins : RoverInstruction) (k : Nat)
    (hsplit : input.Instructions = pre ++ ins :: post)
    (hk : k = pre.length + 1)
    (outs : List String) (mcMid : MissionControl)
    (hpre : executeLoop mc 0 pre [] = (.ok outs, mcMid)) :
    (∀ e, NewRover (k : Int) ins.InitialPosition = .error e →
      (mc.Execute input).1 = .error (.wrapOrdinal .roverCreating (k : Int) e) ∧
      errorsIs (.wrapOrdinal .roverCreating (k : Int) e) .roverCreating = true) ∧
    (∀ (r : Rover) (e : GoError) (r2 : Rover) (mc2 : MissionControl),
      NewRover (k : Int) ins.InitialPosition = .ok r →
      mcMid.RunRover r ins.Commands = (.error e, r2, mc2) →
      (mc.Execute input).1 = .error (.wrapOrdinal .roverInstructions (k : Int) e) ∧
      errorsIs (.wrapOrdinal .roverInstructions (k : Int) e) .roverInstructions = true) := by
  have hex : mc.Execute input = executeLoop mcMid (0 + pre.length) (ins :: post) outs := by
    unfold MissionControl.Execute
    rw [hsplit]
    exact executeLoop_append pre (ins :: post) mc 0 [] outs mcMid hpre
  have harg : (((0 + pre.length : Nat) : Int) + 1) = (k : Int) := by
    subst hk
    push_cast
    omega
  constructor
  · intro e hne
    have hne2 : NewRover (((0 + pre.length : Nat) : Int) + 1) ins.InitialPosition
        = .error e := by
      rw [harg]
      exact hne
    have hloop := executeLoop_cons_creationFailure mcMid (0 + pre.length) ins post outs e hne2
    rw [harg] at hloop
    refine ⟨?_, rfl⟩
    rw [hex, hloop]
  · intro r e r2 mc2 hnr hrr
    have hnr2 : NewRover (((0 + pre.length : Nat) : Int) + 1) ins.InitialPosition
        = .ok r := by
      rw [harg]
      exact hnr
    have hloop := executeLoop_cons_runFailure mcMid (0 + pre.length) ins post outs r e r2 mc2 hnr2 hrr
    rw [harg] at hloop
    refine ⟨?_, rfl⟩
    rw [hex, hloop]

/-- Scenario D input: the second rover is placed directly onto the cell
already occupied by the first rover. -/
def scenarioD : MissionControlInput :=
  { Instructions :=
      [ { InitialPosition := some { coordinates := { x := 1, y := 2 }, direction := N },
          Commands := "" },
        { InitialPosition := some { coordinates := { x := 1, y := 2 }, direction := N },
          Commands := "" } ] }

/-- The exact error value Execute produces on Scenario D. -/
def scenarioD_error : GoError :=
  .wrapOrdinal .roverInstructions 2
    (.wrapPlacement 2 "1 2 N" (.sentinel .roverCollision))

/-- Counterexample to claim C4 as stated: on Scenario D, Execute fails and
its error reaches RoverExecutionFailed (ErrRoverInstructions) by
unwrapping, but it does NOT wrap the underlying cause: the Go errors.Is
chain does not reach ErrRoverCollision, because Execute formats the cause
with the verb that keeps only its text. -/
theorem C4_counterexample :
    (MissionControl.Execute (freshMC plateau55) scenarioD).1
        = .error scenarioD_error ∧
    errorsIs scenarioD_error .roverInstructions = true ∧
    errorsIs scenarioD_error .roverCollision = false := by
  refine ⟨rfl, rfl, rfl⟩

/-- The (repeated) instruction of Scenario D. -/
def insD : RoverInstruction :=
  { InitialPosition := some { coordinates := { x := 1, y := 2 }, direction := N },
    Commands := "" }

theorem C4_witness :
    (MissionControl.Execute (freshMC plateau55) scenarioD).1
        = .error (.wrapOrdinal .roverInstructions 2
            (.wrapPlacement 2 "1 2 N" (.sentinel .roverCollision))) ∧
    errorsIs (.wrapOrdinal .roverInstructions 2
        (.wrapPlacement 2 "1 2 N" (.sentinel .roverCollision))) .roverInstructions
      = true :=
  (C4_execute_aborts_at_failing_ordinal (freshMC plateau55) scenarioD
      [insD] [] insD 2 rfl rfl ["1 2 N"]
      ((executeLoop (freshMC plateau55) 0 [insD] []).2) rfl).2
    { id := 2, position := { coordinates := { x := 1, y := 2 }, direction := N } }
    (.wrapPlacement 2 "1 2 N" (.sentinel .roverCollision))
    { id := 2, position := { coordinates := { x := 1, y := 2 }, direction := N } }
    ((executeLoop (freshMC plateau55) 0 [insD] []).2) rfl rfl

end MarsRover
